import Mathlib

/-!
Verification of the NHyeS-dashboard network-analysis core.

Shallow embedding of the Python pipeline in
network_analysis/data_prep_leiden.py, data_prep.py, d3_export.py and
api.py.  Rates are modelled over the rationals; pandas Series become
lists processed in row order; a collections.Counter over a list of
labels is represented by the list itself (sum of its values is the
list length, Counter.get of a key is List.count, truthiness is
non-emptiness).
-/

/-! ## Data model and normalizer (clean_for_network) -/

/-- A raw appointment row after the column-typing step (graph_df).
Fields that pandas can hold as NA are Options; dates are kept as opaque
strings since the pipeline never computes with them. -/
structure RawRow where
  patient_key : Option String
  site_code : Option String
  attend : Option String
  age : Option ℚ
  outcome : String
  treatment_function : String
  referring_org : String
  appointment_date : Option String
  postcode : String
  org_code : String
  deriving DecidableEq, Repr

/-- A cleaned row as produced by clean_for_network: essential keys
present, attendance code defaulted to "0", DNA flag derived. -/
structure CleanRow where
  patient_key : String
  site_code : String
  dnaFlag : Bool
  age : Option ℚ
  outcome : String
  treatment_function : String
  referring_org : String
  appointment_date : Option String
  postcode : String
  org_code : String
  deriving DecidableEq, Repr

/-- clean_for_network: drop rows whose PATIENT_KEY or SITE_CODE_OF_TREATMENT
is missing, fill a missing attendance code with "0", and set
DNA_FLAG to 1 exactly for attendance codes "3" and "7". -/
def clean_for_network (df : List RawRow) : List CleanRow :=
  df.filterMap fun r =>
    match r.patient_key, r.site_code with
    | some p, some s =>
      let att := r.attend.getD "0"
      some { patient_key := p, site_code := s,
             dnaFlag := att == "3" || att == "7",
             age := r.age, outcome := r.outcome,
             treatment_function := r.treatment_function,
             referring_org := r.referring_org,
             appointment_date := r.appointment_date,
             postcode := r.postcode, org_code := r.org_code }
    | _, _ => none

/-- sample_data_for_network: the dataset is returned unchanged when it is
already within the cap; otherwise df.sample(n=cap, random_state=seed) is
called, an external deterministic draw modelled by the sampler argument. -/
def sample_data_for_network (sampler : ℕ → ℕ → List RawRow → List RawRow)
    (df : List RawRow) (max_records seed : ℕ) : List RawRow :=
  if df.length ≤ max_records then df else sampler seed max_records df

/-! ## Graph builder (create_enhanced_bipartite_graph) -/

/-- Rows of the cleaned frame belonging to one patient
(df[df[PATIENT_KEY] == patient]). -/
def rowsForPatient (df : List CleanRow) (p : String) : List CleanRow :=
  df.filter fun r => r.patient_key = p

/-- Rows of the cleaned frame belonging to one site. -/
def rowsForSite (df : List CleanRow) (s : String) : List CleanRow :=
  df.filter fun r => r.site_code = s

/-- Bayesian smoothed rate (total_dnas + 1) / (total_appointments + 5),
shared by the patient and the site node computations. -/
def smoothedRate (total_appointments total_dnas : ℕ) : ℚ :=
  ((total_dnas : ℚ) + 1) / ((total_appointments : ℚ) + 5)

/-- Risk category of a patient from the smoothed dna_rate:
"High" if dna_rate > 0.3 else "Medium" if dna_rate > 0.1 else "Low". -/
def riskCategory (dna_rate : ℚ) : String :=
  if dna_rate > 3/10 then "High" else if dna_rate > 1/10 then "Medium" else "Low"

/-- Age group classification from the first observed row of a patient:
missing age gives "Unknown", then cut points 18, 35, 65. -/
def ageGroupOf (age : Option ℚ) : String :=
  match age with
  | none => "Unknown"
  | some a =>
    if a < 18 then "Child"
    else if a < 35 then "Young Adult"
    else if a < 65 then "Adult"
    else "Senior"

/-- A graph node as stored by create_enhanced_bipartite_graph.  Patient
nodes and site nodes share the structure; attributes that the source
only sets for the other kind are filled with neutral defaults. -/
structure GNode where
  node_type : String
  age : Option ℚ
  age_group : String
  total_appointments : ℕ
  total_dnas : ℕ
  dna_rate : ℚ
  risk_category : String
  unique_sites : ℕ
  site_dna_rate : ℚ
  unique_patients : ℕ
  deriving DecidableEq, Repr

/-- Patient node attributes computed from the rows of one patient:
counts, smoothed dna_rate, risk category, age group from the first
observed row. -/
def patientNodeOf (df : List CleanRow) (p : String) : GNode :=
  let pdata := rowsForPatient df p
  let total_appointments := pdata.length
  let total_dnas := (pdata.filter fun r => r.dnaFlag).length
  let dna_rate := smoothedRate total_appointments total_dnas
  let firstAge := (pdata.head?.map fun r => r.age).getD none
  { node_type := "patient",
    age := firstAge,
    age_group := ageGroupOf firstAge,
    total_appointments := total_appointments,
    total_dnas := total_dnas,
    dna_rate := dna_rate,
    risk_category := riskCategory dna_rate,
    unique_sites := ((pdata.map fun r => r.site_code).eraseDups).length,
    site_dna_rate := 0,
    unique_patients := 0 }

/-- Site node attributes computed from the rows of one site. -/
def siteNodeOf (df : List CleanRow) (s : String) : GNode :=
  let sdata := rowsForSite df s
  let total_appointments := sdata.length
  let total_dnas := (sdata.filter fun r => r.dnaFlag).length
  { node_type := "site",
    age := none,
    age_group := "Unknown",
    total_appointments := total_appointments,
    total_dnas := total_dnas,
    dna_rate := 0,
    risk_category := "Low",
    unique_sites := 0,
    site_dna_rate := smoothedRate total_appointments total_dnas,
    unique_patients := ((sdata.map fun r => r.patient_key).eraseDups).length }

/-- The node table of the bipartite graph: one patient node per distinct
PATIENT_KEY in first-occurrence order, then one site node per distinct
SITE_CODE_OF_TREATMENT, with the "P_" and "S_" id convention. -/
def nodesOf (df : List CleanRow) : List (String × GNode) :=
  (((df.map fun r => r.patient_key).eraseDups).map fun p =>
      ("P_" ++ p, patientNodeOf df p))
  ++ (((df.map fun r => r.site_code).eraseDups).map fun s =>
      ("S_" ++ s, siteNodeOf df s))

/-- Fallback node used for id lookups that miss (cannot happen for ids
taken from the graph). -/
def defaultGNode : GNode :=
  { node_type := "", age := none, age_group := "Unknown",
    total_appointments := 0, total_dnas := 0, dna_rate := 0,
    risk_category := "Low", unique_sites := 0, site_dna_rate := 0,
    unique_patients := 0 }

/-- Lookup of G.nodes[id] in the node table. -/
def getNode (df : List CleanRow) (id : String) : GNode :=
  match (nodesOf df).find? (fun kv => kv.1 = id) with
  | some kv => kv.2
  | none => defaultGNode

/-! ## Edge accumulation of the graph builder -/

/-- Edge attributes of the single (patient, site) edge. -/
structure EdgeData where
  weight : ℕ
  dna_count : ℕ
  appointment_date : Option String
  treatment_function : String
  referring_org : String
  outcome : String
  deriving DecidableEq, Repr

/-- Edge creation from a first row: weight 1, dna_count from the DNA
flag, ancillary metadata copied from the row. -/
def initEdge (r : CleanRow) : EdgeData :=
  { weight := 1,
    dna_count := if r.dnaFlag then 1 else 0,
    appointment_date := r.appointment_date,
    treatment_function := r.treatment_function,
    referring_org := r.referring_org,
    outcome := r.outcome }

/-- Edge update on a repeat row: weight += 1, dna_count += DNA_FLAG, all
other attributes untouched (the source only assigns these two keys). -/
def updateEdge (e : EdgeData) (r : CleanRow) : EdgeData :=
  { e with weight := e.weight + 1,
           dna_count := e.dna_count + (if r.dnaFlag then 1 else 0) }

/-- The edge-building loop of create_enhanced_bipartite_graph projected
onto one (patient, site) key: rows are processed in order, a row whose
key matches either creates the edge or updates it, rows for other keys
leave this edge alone. -/
def edgeFold (p s : String) : List CleanRow → Option EdgeData → Option EdgeData
  | [], acc => acc
  | r :: rs, acc =>
    edgeFold p s rs
      (if r.patient_key = p ∧ r.site_code = s then
        some (match acc with
              | none => initEdge r
              | some e => updateEdge e r)
       else acc)

/-- The final edge stored for the pair (p, s), if any row joins them. -/
def edgeFor (df : List CleanRow) (p s : String) : Option EdgeData :=
  edgeFold p s df none

/-- Per-edge dna_rate computed at the end of graph construction:
dna_count / weight. -/
def edgeDnaRate (e : EdgeData) : ℚ := (e.dna_count : ℚ) / (e.weight : ℚ)

/-- Rows that join patient p and site s, in processing order. -/
def matchingRows (df : List CleanRow) (p s : String) : List CleanRow :=
  df.filter fun r => r.patient_key = p ∧ r.site_code = s

/-! ## Community partitioner post-processing -/

/-- The communities of at least the minimum size, in output order
(the "large_communities" bucket of the filtering loop). -/
def largeOf (comms : List (List String)) (min_size : ℕ) : List (List String) :=
  comms.filter fun c => min_size ≤ c.length

/-- The members of all communities below the minimum size, flattened in
output order (the "small_nodes" bucket of the filtering loop). -/
def smallOf (comms : List (List String)) (min_size : ℕ) : List String :=
  (comms.filter fun c => c.length < min_size).flatten

/-- Tail recursion behind argmaxLen: fold the remaining indices keeping
the current best, replacing it only on a strictly larger community. -/
def argmaxAux (l : List (List String)) : List ℕ → ℕ → ℕ
  | [], best => best
  | i :: is, best =>
    argmaxAux l is
      (if (l.getD best []).length < (l.getD i []).length then i else best)

/-- max(range(len(l)), key=lambda i: len(l[i])): the first index of a
community of maximal length. -/
def argmaxLen (l : List (List String)) : ℕ :=
  argmaxAux l (List.range l.length) 0

/-- large_communities[largest_idx].extend(small_nodes): community i is
replaced by itself followed by the merged nodes. -/
def mergeAt (l : List (List String)) (i : ℕ) (extra : List String) :
    List (List String) :=
  l.set i ((l.getD i []) ++ extra)

/-- filter_communities_by_size from data_prep.py: keep communities of at
least min_size; if any small nodes exist and a community survived, merge
them into the largest surviving community; otherwise, if the small nodes
alone reach min_size, they form one new community; the surviving list is
returned in every case. -/
def filter_communities_by_size (comms : List (List String)) (min_size : ℕ) :
    List (List String) :=
  let large := largeOf comms min_size
  let small := smallOf comms min_size
  if small ≠ [] ∧ large ≠ [] then mergeAt large (argmaxLen large) small
  else if small ≠ [] ∧ min_size ≤ small.length then large ++ [small]
  else large

/-- The inline size filter of detect_communities_leiden in
data_prep_leiden.py: identical to filter_communities_by_size except that
it lacks the branch forming a lone community out of the small nodes. -/
def leidenSizeFilter (comms : List (List String)) (min_size : ℕ) :
    List (List String) :=
  let large := largeOf comms min_size
  let small := smallOf comms min_size
  if small ≠ [] ∧ large ≠ [] then mergeAt large (argmaxLen large) small
  else large

/-- detect_communities_leiden: when the cdlib backend is missing or the
external Leiden call raises, the function returns None; otherwise it
returns the size-filtered communities.  The external algorithm output is
modelled by the backend argument (none = unavailable or failed). -/
def detect_communities_leiden (backend : Option (List (List String)))
    (min_community_size : ℕ) : Option (List (List String)) :=
  backend.map fun comms => leidenSizeFilter comms min_community_size

/-- Modelled from the spec: the minimum-size filter/merge policy as the
specification words it — communities at or above the minimum are kept,
small members merge into the first-encountered largest survivor, a lone
community is formed when nothing survives but the merged nodes reach the
minimum, and otherwise the partitioner reports failure (none).  This
definition exists only to be compared against the code. -/
def filterPolicySpec (comms : List (List String)) (min_size : ℕ) :
    Option (List (List String)) :=
  let large := largeOf comms min_size
  let small := smallOf comms min_size
  if small = [] then some large
  else if large ≠ [] then some (mergeAt large (argmaxLen large) small)
  else if min_size ≤ small.length then some [small]
  else none

/-! ## Risk scorer -/

/-- np.mean of a list of rationals. -/
def npMean (xs : List ℚ) : ℚ := xs.sum / (xs.length : ℚ)

/-- calculate_community_risk_score: 0 for an empty rate list, otherwise
avg_dna * 0.7 + high_risk_prop * 0.3 where the Counter risk_counts is
represented by the list of member risk categories (sum of counts is the
list length, the High entry is the count of "High"). -/
def calculate_community_risk_score (dna_rates : List ℚ)
    (risk_categories : List String) : ℚ :=
  if dna_rates = [] then 0
  else
    let avg_dna := npMean dna_rates
    let total_patients : ℕ :=
      if risk_categories = [] then 1 else risk_categories.length
    let high_risk_prop : ℚ :=
      (risk_categories.count "High" : ℚ) / (total_patients : ℚ)
    avg_dna * (7/10) + high_risk_prop * (3/10)

/-- One row of the community statistics frame (the fields the claims
touch). -/
structure CommunityStats where
  community_id : ℕ
  size : ℕ
  patients_count : ℕ
  sites_count : ℕ
  avg_dna_rate : ℚ
  high_risk_patients : ℕ
  medium_risk_patients : ℕ
  low_risk_patients : ℕ
  risk_score : ℚ
  deriving DecidableEq, Repr

/-- The loop body of analyze_community_dna_patterns for community number
i: communities with no patient node produce no row (the continue);
otherwise the aggregates are computed from the member patient nodes. -/
def communityStatsRow (G : String → GNode) (i : ℕ) (community : List String) :
    Option CommunityStats :=
  let patients_in_comm := community.filter fun n => (G n).node_type = "patient"
  if patients_in_comm.length = 0 then none
  else
    let community_dna_rates := patients_in_comm.map fun p => (G p).dna_rate
    let risk_categories := patients_in_comm.map fun p => (G p).risk_category
    some
      { community_id := i,
        size := community.length,
        patients_count := patients_in_comm.length,
        sites_count :=
          (community.filter fun n => (G n).node_type = "site").length,
        avg_dna_rate :=
          if community_dna_rates = [] then 0 else npMean community_dna_rates,
        high_risk_patients := risk_categories.count "High",
        medium_risk_patients := risk_categories.count "Medium",
        low_risk_patients := risk_categories.count "Low",
        risk_score :=
          calculate_community_risk_score community_dna_rates risk_categories }

/-- Insertion of one element into a sorted list (used to model the
stable pandas sorts; only membership matters to the claims). -/
def insertSorted {α : Type} (le : α → α → Bool) (x : α) : List α → List α
  | [] => [x]
  | y :: ys => if le x y then x :: y :: ys else y :: insertSorted le x ys

/-- Insertion sort with respect to a boolean comparison. -/
def insertionSort {α : Type} (le : α → α → Bool) (xs : List α) : List α :=
  xs.foldr (insertSorted le) []

/-- analyze_community_dna_patterns: enumerate the communities, build one
stats row per community that has at least one patient, then sort the
frame by risk_score descending. -/
def analyze_community_dna_patterns (G : String → GNode)
    (comms : List (List String)) : List CommunityStats :=
  insertionSort (fun a b => decide (b.risk_score ≤ a.risk_score))
    (comms.enum.filterMap fun ic => communityStatsRow G ic.1 ic.2)

/-! ## Percentile thresholds and risk tiers -/

/-- pandas Series.quantile with the default linear interpolation: sort
the values, take position q * (n - 1) and interpolate between the
neighbouring order statistics. -/
def quantileLinear (xs : List ℚ) (q : ℚ) : ℚ :=
  let s := insertionSort (fun a b => decide (a ≤ b)) xs
  let h : ℚ := q * ((s.length : ℚ) - 1)
  s.getD (⌊h⌋).toNat 0
    + (h - (⌊h⌋ : ℚ)) * (s.getD (⌈h⌉).toNat 0 - s.getD (⌊h⌋).toNat 0)

/-- The data-driven thresholds of identify_high_low_risk_communities
(use_percentiles=True): 75th and 25th percentile of the risk scores. -/
def identifyThresholds (risk_scores : List ℚ) : ℚ × ℚ :=
  (quantileLinear risk_scores (3/4), quantileLinear risk_scores (1/4))

/-- The thresholds computed in export_for_d3js from the community frame:
the same two quantiles of risk_score. -/
def exportThresholds (risk_scores : List ℚ) : ℚ × ℚ :=
  (quantileLinear risk_scores (3/4), quantileLinear risk_scores (1/4))

/-- The high_risk subset of identify_high_low_risk_communities:
risk_score >= high_threshold. -/
def identifyHighRisk (risk_scores : List ℚ) (hi : ℚ) : List ℚ :=
  risk_scores.filter fun s => hi ≤ s

/-- The low_risk subset: risk_score <= low_threshold. -/
def identifyLowRisk (risk_scores : List ℚ) (lo : ℚ) : List ℚ :=
  risk_scores.filter fun s => s ≤ lo

/-- The medium_risk subset: strictly between the two thresholds. -/
def identifyMediumRisk (risk_scores : List ℚ) (hi lo : ℚ) : List ℚ :=
  risk_scores.filter fun s => lo < s ∧ s < hi

/-- The single risk label assigned in export_for_d3js: High when the
score reaches the high threshold, else Low when it is at most the low
threshold, else Medium. -/
def riskLevel (hi lo s : ℚ) : String :=
  if hi ≤ s then "High" else if s ≤ lo then "Low" else "Medium"

/-! ## Export document and the run_analysis state machine (api.py) -/

/-- The fields of the export document that the claims inspect. -/
structure ExportDoc where
  total_communities : ℕ
  high_threshold : ℚ
  low_threshold : ℚ
  community_levels : List String
  deriving DecidableEq, Repr

/-- export_for_d3js restricted to the fields above: thresholds are the
two quantiles of risk_score over the community frame and every community
row receives its single risk_level label. -/
def export_for_d3js (comms : List (List String))
    (community_df : List CommunityStats) : ExportDoc :=
  let scores := community_df.map fun c => c.risk_score
  let hi := quantileLinear scores (3/4)
  let lo := quantileLinear scores (1/4)
  { total_communities := comms.length,
    high_threshold := hi,
    low_threshold := lo,
    community_levels := community_df.map fun c => riskLevel hi lo c.risk_score }

/-- The externally visible analysis state of api.py that the claims
inspect: the initialized flag and the analysis_progress string. -/
structure AnalysisState where
  initialized : Bool
  analysis_progress : String
  deriving DecidableEq, Repr

/-- run_analysis from api.py, from the point where the graph exists: the
Leiden step may fail (backend none); a None community result raises,
the except branch records the error message in analysis_progress and no
export document is produced; on success the export is written and the
state is published as completed. -/
def run_analysis (s : AnalysisState) (G : String → GNode)
    (backend : Option (List (List String))) (min_community_size : ℕ) :
    AnalysisState × Option ExportDoc :=
  match detect_communities_leiden backend min_community_size with
  | none =>
    ({ s with analysis_progress :=
        "error: Community detection failed - check dependencies" }, none)
  | some communities =>
    let community_df := analyze_community_dna_patterns G communities
    let doc := export_for_d3js communities community_df
    ({ initialized := true, analysis_progress := "completed" }, some doc)

/-! ## The composed pipeline (sampling through thresholds) -/

/-- The outputs of one run that claim C9 compares across runs. -/
structure RunResult where
  sampled : List RawRow
  risk_scores : List ℚ
  thresholds : ℚ × ℚ
  deriving DecidableEq, Repr

/-- One full run: sample with the given cap and seed, clean, build the
node table, partition (a deterministic backend given the node table),
size-filter, analyze, and compute the percentile thresholds. -/
def runPipeline (sampler : ℕ → ℕ → List RawRow → List RawRow)
    (backend : List (String × GNode) → Option (List (List String)))
    (df : List RawRow) (cap seed min_size : ℕ) : Option RunResult :=
  let sampled := sample_data_for_network sampler df cap seed
  let cleaned := clean_for_network sampled
  match detect_communities_leiden (backend (nodesOf cleaned)) min_size with
  | none => none
  | some communities =>
    let community_df :=
      analyze_community_dna_patterns (getNode cleaned) communities
    let scores := community_df.map fun c => c.risk_score
    some { sampled := sampled, risk_scores := scores,
           thresholds := identifyThresholds scores }

/-! ## Concrete instances used by witnesses and counterexamples -/

/-- A cleaned appointment row template for concrete tests. -/
def rowTemplate : CleanRow :=
  { patient_key := "P1", site_code := "S1", dnaFlag := false, age := some 40,
    outcome := "1", treatment_function := "110", referring_org := "RA",
    appointment_date := some "01/01/2024", postcode := "AB1 2", org_code := "O1" }

/-- First of two rows joining the same (patient, site) pair. -/
def c1rowA : CleanRow := rowTemplate

/-- Second row for the same pair with different ancillary metadata. -/
def c1rowB : CleanRow :=
  { rowTemplate with treatment_function := "120", referring_org := "RB",
                     outcome := "2", appointment_date := some "02/01/2024" }

/-- A three-appointment, one-DNA history for patient P1 (the spec
scenario for the smoothed risk category). -/
def p1df : List CleanRow :=
  [{ rowTemplate with dnaFlag := true },
   rowTemplate,
   { rowTemplate with site_code := "S2" }]

/-- A node table where every id resolves to one fixed patient node. -/
def onePatientG : String → GNode := fun _ =>
  { defaultGNode with node_type := "patient", dna_rate := 1/4,
                      risk_category := "Medium", age_group := "Adult" }

/-! ## Helper lemmas -/

/-- Membership in an insertion is membership in the parts. -/
theorem mem_insertSorted {α : Type} (le : α → α → Bool) (x a : α) :
    ∀ l : List α, a ∈ insertSorted le x l ↔ a = x ∨ a ∈ l := by
  intro l
  induction l with
  | nil => simp [insertSorted]
  | cons y ys ih =>
    by_cases h : le x y = true
    · simp [insertSorted, h]
    · simp only [insertSorted, if_neg h, List.mem_cons, ih]
      tauto

/-- Insertion sort preserves membership. -/
theorem mem_insertionSort {α : Type} (le : α → α → Bool) (a : α) :
    ∀ xs : List α, a ∈ insertionSort le xs ↔ a ∈ xs := by
  intro xs
  induction xs with
  | nil => simp [insertionSort]
  | cons y ys ih =>
    show a ∈ insertSorted le y (insertionSort le ys) ↔ _
    rw [mem_insertSorted, ih]
    simp [eq_comm]

/-- The smoothed rate is strictly positive. -/
theorem smoothedRate_pos (a d : ℕ) : 0 < smoothedRate a d := by
  unfold smoothedRate
  positivity

/-- The smoothed rate is strictly below one whenever the DNA count does
not exceed the appointment count. -/
theorem smoothedRate_lt_one (a d : ℕ) (hd : d ≤ a) : smoothedRate a d < 1 := by
  unfold smoothedRate
  rw [div_lt_one (by positivity)]
  have : (d : ℚ) ≤ (a : ℚ) := by exact_mod_cast hd
  linarith

/-- C3: For every patient node built from a non-empty row set, the
stored dna_rate equals (total_dnas + 1) / (total_appointments + 5) and
lies strictly between 0 and 1. -/
theorem patient_dna_rate_smoothed_bounds (df : List CleanRow) (p : String)
    (h : rowsForPatient df p ≠ []) :
    (patientNodeOf df p).dna_rate =
      (((patientNodeOf df p).total_dnas : ℚ) + 1) /
        (((patientNodeOf df p).total_appointments : ℚ) + 5) ∧
    0 < (patientNodeOf df p).dna_rate ∧ (patientNodeOf df p).dna_rate < 1 := by
  have hrate : (patientNodeOf df p).dna_rate =
      smoothedRate (rowsForPatient df p).length
        ((rowsForPatient df p).filter (fun r => r.dnaFlag)).length := rfl
  refine ⟨rfl, ?_, ?_⟩
  · rw [hrate]; exact smoothedRate_pos _ _
  · rw [hrate]
    exact smoothedRate_lt_one _ _ (List.length_filter_le _ _)

/-- Witness for C3 at a concrete one-row history. -/
theorem patient_dna_rate_smoothed_bounds_witness :
    rowsForPatient [rowTemplate] "P1" ≠ [] ∧
    0 < (patientNodeOf [rowTemplate] "P1").dna_rate ∧
    (patientNodeOf [rowTemplate] "P1").dna_rate < 1 :=
  ⟨by decide,
   (patient_dna_rate_smoothed_bounds [rowTemplate] "P1" (by decide)).2⟩

/-- C7: risk_category is determined by thresholds 0.3 and 0.1 applied to
the smoothed dna_rate (High iff rate > 0.3, Medium iff 0.1 < rate ≤ 0.3,
Low iff rate ≤ 0.1); the spec scenario patient with 3 appointments and
1 DNA has smoothed rate 1/4 and category "Medium", although the raw
proportion 1/3 would have been classified "High". -/
theorem risk_category_thresholds_on_smoothed_rate :
    (∀ r : ℚ,
      (riskCategory r = "High" ↔ 3/10 < r) ∧
      (riskCategory r = "Medium" ↔ 1/10 < r ∧ r ≤ 3/10) ∧
      (riskCategory r = "Low" ↔ r ≤ 1/10)) ∧
    (patientNodeOf p1df "P1").total_appointments = 3 ∧
    (patientNodeOf p1df "P1").total_dnas = 1 ∧
    (patientNodeOf p1df "P1").dna_rate = 1/4 ∧
    (patientNodeOf p1df "P1").risk_category = "Medium" ∧
    riskCategory (1/3) = "High" := by
  have hgen : ∀ r : ℚ,
      (riskCategory r = "High" ↔ 3/10 < r) ∧
      (riskCategory r = "Medium" ↔ 1/10 < r ∧ r ≤ 3/10) ∧
      (riskCategory r = "Low" ↔ r ≤ 1/10) := by
    intro r
    unfold riskCategory
    split_ifs with h1 h2
    · refine ⟨⟨fun _ => h1, fun _ => rfl⟩, ?_, ?_⟩
      · exact ⟨fun hc => absurd hc (by decide), fun hc => absurd h1 (by linarith [hc.2])⟩
      · exact ⟨fun hc => absurd hc (by decide), fun hc => absurd h1 (by linarith)⟩
    · refine ⟨?_, ⟨fun _ => ⟨h2, le_of_not_lt h1⟩, fun _ => rfl⟩, ?_⟩
      · exact ⟨fun hc => absurd hc (by decide), fun hc => absurd hc h1⟩
      · exact ⟨fun hc => absurd hc (by decide), fun hc => absurd h2 (by linarith)⟩
    · refine ⟨?_, ?_, ⟨fun _ => le_of_not_lt h2, fun _ => rfl⟩⟩
      · exact ⟨fun hc => absurd hc (by decide), fun hc => absurd hc h1⟩
      · exact ⟨fun hc => absurd hc (by decide), fun hc => absurd hc.1 h2⟩
  have happ : (patientNodeOf p1df "P1").total_appointments = 3 := by decide
  have hdna : (patientNodeOf p1df "P1").total_dnas = 1 := by decide
  have hrate : (patientNodeOf p1df "P1").dna_rate = 1/4 := by
    have : (patientNodeOf p1df "P1").dna_rate = smoothedRate 3 1 := by
      show smoothedRate (rowsForPatient p1df "P1").length
        ((rowsForPatient p1df "P1").filter (fun r => r.dnaFlag)).length = _
      have h1 : (rowsForPatient p1df "P1").length = 3 := by decide
      have h2 : ((rowsForPatient p1df "P1").filter (fun r => r.dnaFlag)).length = 1 := by
        decide
      rw [h1, h2]
    rw [this]
    unfold smoothedRate
    norm_num
  have hcat : (patientNodeOf p1df "P1").risk_category = "Medium" := by
    have : (patientNodeOf p1df "P1").risk_category =
        riskCategory (patientNodeOf p1df "P1").dna_rate := rfl
    rw [this, hrate]
    exact ((hgen (1/4)).2.1).mpr (by norm_num)
  refine ⟨hgen, happ, hdna, hrate, hcat, ?_⟩
  exact ((hgen (1/3)).1).mpr (by norm_num)

/-- Closed form of calculate_community_risk_score on non-empty input. -/
theorem calculate_risk_eq (rates : List ℚ) (cats : List String)
    (hr : rates ≠ []) (hc : cats ≠ []) :
    calculate_community_risk_score rates cats =
      7/10 * npMean rates + 3/10 * ((cats.count "High" : ℚ) / (cats.length : ℚ)) := by
  simp only [calculate_community_risk_score, if_neg hr, if_neg hc]
  ring

/-- C5: For every community with at least one patient, the risk score of
its statistics row is 0.7 times the mean patient dna_rate plus 0.3 times
the proportion of High-risk patients; the spec scenario with rates
[0.1, 0.2, 0.9] and one patient in each tier scores 19/50 = 0.38. -/
theorem community_risk_score_formula (G : String → GNode) (i : ℕ)
    (community : List String)
    (h : community.filter (fun n => (G n).node_type = "patient") ≠ []) :
    (∃ st, communityStatsRow G i community = some st ∧
      st.risk_score =
        7/10 * npMean ((community.filter fun n => (G n).node_type = "patient").map
            fun p => (G p).dna_rate)
        + 3/10 *
          ((((community.filter fun n => (G n).node_type = "patient").map
              fun p => (G p).risk_category).count "High" : ℚ)
            / ((community.filter fun n => (G n).node_type = "patient").length : ℚ))) ∧
    calculate_community_risk_score [1/10, 2/10, 9/10] ["High", "Medium", "Low"]
      = 19/50 := by
  constructor
  · have hlen : ¬ (community.filter fun n => (G n).node_type = "patient").length = 0 := by
      simpa [List.length_eq_zero] using h
    unfold communityStatsRow
    simp only [if_neg hlen]
    refine ⟨_, rfl, ?_⟩
    show calculate_community_risk_score _ _ = _
    rw [calculate_risk_eq _ _ (by simpa [List.map_eq_nil_iff] using h)
        (by simpa [List.map_eq_nil_iff] using h), List.length_map]
  · have h1 : (["High", "Medium", "Low"] : List String).count "High" = 1 := by decide
    have h2 : (["High", "Medium", "Low"] : List String).length = 3 := by decide
    rw [calculate_risk_eq _ _ (by simp) (by simp), h1, h2]
    unfold npMean
    norm_num

/-- Witness for C5 at a one-patient community. -/
theorem community_risk_score_formula_witness :
    ∃ st, communityStatsRow onePatientG 0 ["a"] = some st ∧
      st.risk_score =
        7/10 * npMean ((["a"].filter fun n => (onePatientG n).node_type = "patient").map
            fun p => (onePatientG p).dna_rate)
        + 3/10 *
          ((((["a"].filter fun n => (onePatientG n).node_type = "patient").map
              fun p => (onePatientG p).risk_category).count "High" : ℚ)
            / ((["a"].filter fun n => (onePatientG n).node_type = "patient").length : ℚ)) :=
  (community_risk_score_formula onePatientG 0 ["a"] (by decide)).1

/-- C8: Communities with zero patient nodes produce no statistics row
(every produced row counts at least one patient), and the risk score of
an empty patient list is 0 rather than a division error. -/
theorem zero_patient_communities_guarded (G : String → GNode)
    (comms : List (List String)) :
    (∀ st ∈ analyze_community_dna_patterns G comms, 1 ≤ st.patients_count) ∧
    (∀ cats : List String, calculate_community_risk_score [] cats = 0) := by
  constructor
  · intro st hst
    rw [show analyze_community_dna_patterns G comms =
        insertionSort (fun a b => decide (b.risk_score ≤ a.risk_score))
          (comms.enum.filterMap fun ic => communityStatsRow G ic.1 ic.2) from rfl,
      mem_insertionSort] at hst
    obtain ⟨ic, _, hrow⟩ := List.mem_filterMap.mp hst
    unfold communityStatsRow at hrow
    by_cases hz : (ic.2.filter fun n => (G n).node_type = "patient").length = 0
    · rw [if_pos hz] at hrow
      exact absurd hrow (by simp)
    · rw [if_neg hz] at hrow
      have := (Option.some.injEq _ _).mp hrow
      rw [← this]
      exact Nat.one_le_iff_ne_zero.mpr hz
  · intro cats
    rfl

/-- Witness for C8: the membership hypothesis is satisfiable on a
concrete one-patient community. -/
theorem zero_patient_communities_guarded_witness :
    ∃ st, st ∈ analyze_community_dna_patterns onePatientG [["a"]] ∧
      1 ≤ st.patients_count := by
  have hne : analyze_community_dna_patterns onePatientG [["a"]] ≠ [] := by
    show insertionSort _ (List.filterMap _ (List.enum [["a"]])) ≠ []
    simp [List.enum, insertionSort, insertSorted, communityStatsRow,
      List.filterMap, onePatientG, defaultGNode]
  obtain ⟨st, hst⟩ := List.exists_mem_of_ne_nil _ hne
  exact ⟨st, hst,
    (zero_patient_communities_guarded onePatientG [["a"]]).1 st hst⟩

/-- C6: When the community-detection backend is unavailable, run_analysis
ends with the recorded error in analysis_progress (a failed, recoverable
state, not "completed") and writes no export document. -/
theorem backend_unavailable_fails_without_export (s : AnalysisState)
    (G : String → GNode) (m : ℕ) :
    (run_analysis s G none m).1.analysis_progress =
      "error: Community detection failed - check dependencies" ∧
    (run_analysis s G none m).1.analysis_progress ≠ "completed" ∧
    (run_analysis s G none m).2 = none :=
  ⟨rfl,
   by
     show ("error: Community detection failed - check dependencies" : String)
       ≠ "completed"
     decide,
   rfl⟩

/-- C9: Two runs over the same input with the same cap, seed and minimum
community size, using the same deterministic sampler and partitioner,
select the identical sampled row subset and produce identical risk_score
lists and identical tier thresholds. -/
theorem pipeline_deterministic
    (sampler : ℕ → ℕ → List RawRow → List RawRow)
    (backend : List (String × GNode) → Option (List (List String)))
    (df₁ df₂ : List RawRow) (cap₁ cap₂ seed₁ seed₂ m₁ m₂ : ℕ)
    (hdf : df₁ = df₂) (hcap : cap₁ = cap₂) (hseed : seed₁ = seed₂)
    (hm : m₁ = m₂) :
    sample_data_for_network sampler df₁ cap₁ seed₁ =
      sample_data_for_network sampler df₂ cap₂ seed₂ ∧
    runPipeline sampler backend df₁ cap₁ seed₁ m₁ =
      runPipeline sampler backend df₂ cap₂ seed₂ m₂ ∧
    (runPipeline sampler backend df₁ cap₁ seed₁ m₁).map (fun r => r.risk_scores)
      = (runPipeline sampler backend df₂ cap₂ seed₂ m₂).map
          (fun r => r.risk_scores) ∧
    (runPipeline sampler backend df₁ cap₁ seed₁ m₁).map (fun r => r.thresholds)
      = (runPipeline sampler backend df₂ cap₂ seed₂ m₂).map
          (fun r => r.thresholds) := by
  subst hdf hcap hseed hm
  exact ⟨rfl, rfl, rfl, rfl⟩

/-- Witness for C9 at concrete runs. -/
theorem pipeline_deterministic_witness :
    runPipeline (fun _ _ l => l) (fun _ => some [["P_P1", "S_S1"]])
        [ { patient_key := some "P1", site_code := some "S1",
            attend := some "3", age := some 40, outcome := "1",
            treatment_function := "110", referring_org := "RA",
            appointment_date := none, postcode := "AB1 2",
            org_code := "O1" } ] 20000 42 1 =
      runPipeline (fun _ _ l => l) (fun _ => some [["P_P1", "S_S1"]])
        [ { patient_key := some "P1", site_code := some "S1",
            attend := some "3", age := some 40, outcome := "1",
            treatment_function := "110", referring_org := "RA",
            appointment_date := none, postcode := "AB1 2",
            org_code := "O1" } ] 20000 42 1 :=
  (pipeline_deterministic (fun _ _ l => l) (fun _ => some [["P_P1", "S_S1"]])
    _ _ 20000 20000 42 42 1 1 rfl rfl rfl rfl).2.1

/-! ## Edge accumulation lemmas -/

/-- Folding further rows over an existing edge only adds the matching
row count to weight and the matching DNA count to dna_count; the
ancillary metadata is never touched again. -/
theorem edgeFold_some (p s : String) :
    ∀ (rows : List CleanRow) (e : EdgeData),
      edgeFold p s rows (some e) =
        some { e with
          weight := e.weight + (matchingRows rows p s).length,
          dna_count := e.dna_count +
            ((matchingRows rows p s).filter fun r => r.dnaFlag).length } := by
  intro rows
  induction rows with
  | nil => intro e; simp [edgeFold, matchingRows]
  | cons r rs ih =>
    intro e
    by_cases hm : r.patient_key = p ∧ r.site_code = s
    · rw [show edgeFold p s (r :: rs) (some e) =
          edgeFold p s rs (some (updateEdge e r)) by simp [edgeFold, hm]]
      rw [ih]
      unfold updateEdge
      by_cases hdna : r.dnaFlag
      · simp [matchingRows, List.filter_cons, hm, hdna]
        omega
      · simp [matchingRows, List.filter_cons, hm, hdna]
        omega
    · rw [show edgeFold p s (r :: rs) (some e) = edgeFold p s rs (some e) by
          simp [edgeFold, hm]]
      rw [ih]
      simp [matchingRows, List.filter_cons, hm]

/-- The edge stored for (p, s) is fully determined by the matching rows:
absent when none match; otherwise weight is the number of matching rows,
dna_count the number of matching DNA rows, and all ancillary metadata is
copied from the first matching row. -/
theorem edgeFor_eq (p s : String) :
    ∀ rows : List CleanRow,
      (matchingRows rows p s = [] → edgeFor rows p s = none) ∧
      (∀ r0 rest, matchingRows rows p s = r0 :: rest →
        edgeFor rows p s =
          some { weight := (matchingRows rows p s).length,
                 dna_count :=
                   ((matchingRows rows p s).filter fun r => r.dnaFlag).length,
                 appointment_date := r0.appointment_date,
                 treatment_function := r0.treatment_function,
                 referring_org := r0.referring_org,
                 outcome := r0.outcome }) := by
  intro rows
  induction rows with
  | nil =>
    exact ⟨fun _ => rfl, fun r0 rest hr => absurd hr (by simp [matchingRows])⟩
  | cons r rs ih =>
    by_cases hm : r.patient_key = p ∧ r.site_code = s
    · have hcons : matchingRows (r :: rs) p s = r :: matchingRows rs p s := by
        simp [matchingRows, List.filter_cons, hm]
      have hstep : edgeFor (r :: rs) p s = edgeFold p s rs (some (initEdge r)) := by
        simp [edgeFor, edgeFold, hm]
      constructor
      · intro hnil; rw [hcons] at hnil; exact absurd hnil (by simp)
      · intro r0 rest hr
        have hr0 : r0 = r := by
          rw [hcons] at hr
          exact (List.cons.injEq r (matchingRows rs p s) r0 rest ▸ hr).1.symm
        subst hr0
        rw [hstep, edgeFold_some, hcons]
        unfold initEdge
        by_cases hdna : r0.dnaFlag = true
        · simp [List.filter_cons, hdna]
          omega
        · simp [List.filter_cons, hdna]
          omega
    · have hcons : matchingRows (r :: rs) p s = matchingRows rs p s := by
        simp [matchingRows, List.filter_cons, hm]
      have hstep : edgeFor (r :: rs) p s = edgeFor rs p s := by
        simp [edgeFor, edgeFold, hm]
      rw [hcons, hstep]
      exact ih

/-- C1 amended: the single edge for a (patient, site) pair ends with its
ancillary fields equal to the values of the FIRST row processed for the
pair; later rows update only weight and dna_count. -/
theorem edge_metadata_first_row_wins (df : List CleanRow) (p s : String)
    (r0 : CleanRow) (rest : List CleanRow)
    (h : matchingRows df p s = r0 :: rest) :
    ∃ e, edgeFor df p s = some e ∧
      e.treatment_function = r0.treatment_function ∧
      e.referring_org = r0.referring_org ∧
      e.outcome = r0.outcome ∧
      e.appointment_date = r0.appointment_date :=
  ⟨_, (edgeFor_eq p s df).2 r0 rest h, rfl, rfl, rfl, rfl⟩

/-- C1 counterexample: two rows for the same pair whose ancillary
metadata differs end with the FIRST value stored on the edge, not the
value of the last processed row as the claim states. -/
theorem edge_metadata_last_row_counterexample :
    ((edgeFor [c1rowA, c1rowB] "P1" "S1").map fun e => e.treatment_function)
      = some "110" ∧
    ((matchingRows [c1rowA, c1rowB] "P1" "S1").getLast?.map
        fun r => r.treatment_function) = some "120" ∧
    ("110" : String) ≠ "120" := by
  refine ⟨by decide, by decide, by decide⟩

/-- Witness for C1 on the concrete two-row history. -/
theorem edge_metadata_first_row_wins_witness :
    matchingRows [c1rowA, c1rowB] "P1" "S1" = c1rowA :: [c1rowB] ∧
    ∃ e, edgeFor [c1rowA, c1rowB] "P1" "S1" = some e ∧
      e.treatment_function = c1rowA.treatment_function ∧
      e.referring_org = c1rowA.referring_org ∧
      e.outcome = c1rowA.outcome ∧
      e.appointment_date = c1rowA.appointment_date :=
  ⟨by decide,
   edge_metadata_first_row_wins [c1rowA, c1rowB] "P1" "S1" c1rowA [c1rowB]
     (by decide)⟩

/-- C10: every stored edge has weight at least 1 and a dna_count bounded
by the weight, so the per-edge dna_rate is a well-defined value in
[0, 1]. -/
theorem edge_invariants (df : List CleanRow) (p s : String) (e : EdgeData)
    (h : edgeFor df p s = some e) :
    1 ≤ e.weight ∧ e.dna_count ≤ e.weight ∧
    0 ≤ edgeDnaRate e ∧ edgeDnaRate e ≤ 1 := by
  rcases hm : matchingRows df p s with _ | ⟨r0, rest⟩
  · rw [(edgeFor_eq p s df).1 hm] at h
    exact absurd h (by simp)
  · rw [(edgeFor_eq p s df).2 r0 rest hm] at h
    have he : e =
        { weight := (matchingRows df p s).length,
          dna_count := ((matchingRows df p s).filter fun r => r.dnaFlag).length,
          appointment_date := r0.appointment_date,
          treatment_function := r0.treatment_function,
          referring_org := r0.referring_org,
          outcome := r0.outcome } := ((Option.some.injEq _ _).mp h).symm
    subst he
    refine ⟨?_, ?_, ?_, ?_⟩
    · rw [hm]; simp
    · exact List.length_filter_le _ _
    · exact div_nonneg (Nat.cast_nonneg _) (Nat.cast_nonneg _)
    · exact div_le_one_of_le₀
        (Nat.cast_le.mpr (List.length_filter_le _ _)) (Nat.cast_nonneg _)

/-- Witness for C10 on the concrete two-row history. -/
theorem edge_invariants_witness :
    1 ≤ (2 : ℕ) ∧ (0 : ℕ) ≤ 2 ∧
    0 ≤ edgeDnaRate
      { weight := 2, dna_count := 0, appointment_date := some "01/01/2024",
        treatment_function := "110", referring_org := "RA", outcome := "1" } ∧
    edgeDnaRate
      { weight := 2, dna_count := 0, appointment_date := some "01/01/2024",
        treatment_function := "110", referring_org := "RA", outcome := "1" }
      ≤ 1 :=
  edge_invariants [c1rowA, c1rowB] "P1" "S1"
    { weight := 2, dna_count := 0, appointment_date := some "01/01/2024",
      treatment_function := "110", referring_org := "RA", outcome := "1" }
    (by decide)

/-- Invariant of the argmax fold: starting from a best index b that
dominates all indices below k (strictly below b), the result dominates
all indices below k + cnt, strictly dominates all indices below itself,
and is either b or one of the folded indices. -/
theorem argmaxAux_spec (l : List (List String)) :
    ∀ (cnt k b : ℕ),
      (∀ j, j < k → (l.getD j []).length ≤ (l.getD b []).length) →
      (∀ j, j < b → (l.getD j []).length < (l.getD b []).length) →
      (∀ j, j < k + cnt →
        (l.getD j []).length ≤
          (l.getD (argmaxAux l (List.range' k cnt) b) []).length) ∧
      (∀ j, j < argmaxAux l (List.range' k cnt) b →
        (l.getD j []).length <
          (l.getD (argmaxAux l (List.range' k cnt) b) []).length) ∧
      (argmaxAux l (List.range' k cnt) b = b ∨
        (k ≤ argmaxAux l (List.range' k cnt) b ∧
          argmaxAux l (List.range' k cnt) b < k + cnt)) := by
  intro cnt
  induction cnt with
  | zero =>
    intro k b h1 h2
    exact ⟨fun j hj => h1 j (by omega), h2, Or.inl rfl⟩
  | succ n ihn =>
    intro k b h1 h2
    have hr : argmaxAux l (List.range' k (n + 1)) b =
        argmaxAux l (List.range' (k + 1) n)
          (if (l.getD b []).length < (l.getD k []).length then k else b) := rfl
    by_cases hbk : (l.getD b []).length < (l.getD k []).length
    · rw [hr, if_pos hbk]
      have h1' : ∀ j, j < k + 1 →
          (l.getD j []).length ≤ (l.getD k []).length := by
        intro j hj
        rcases Nat.lt_succ_iff_lt_or_eq.mp hj with h | h
        · exact le_trans (h1 j h) (le_of_lt hbk)
        · subst h; exact le_refl _
      have h2' : ∀ j, j < k →
          (l.getD j []).length < (l.getD k []).length := by
        intro j hj
        exact lt_of_le_of_lt (h1 j hj) hbk
      obtain ⟨A, B, C⟩ := ihn (k + 1) k h1' h2'
      refine ⟨fun j hj => A j (by omega), B, ?_⟩
      rcases C with h | ⟨h3, h4⟩
      · exact Or.inr ⟨by omega, by omega⟩
      · exact Or.inr ⟨by omega, by omega⟩
    · rw [hr, if_neg hbk]
      have h1' : ∀ j, j < k + 1 →
          (l.getD j []).length ≤ (l.getD b []).length := by
        intro j hj
        rcases Nat.lt_succ_iff_lt_or_eq.mp hj with h | h
        · exact h1 j h
        · subst h; exact le_of_not_lt hbk
      obtain ⟨A, B, C⟩ := ihn (k + 1) b h1' h2
      refine ⟨fun j hj => A j (by omega), B, ?_⟩
      rcases C with h | ⟨h3, h4⟩
      · exact Or.inl h
      · exact Or.inr ⟨by omega, by omega⟩

/-- argmaxLen returns a valid index of a community of maximal length and
every strictly earlier index holds a strictly smaller community: the
first-encountered largest. -/
theorem argmaxLen_spec (l : List (List String)) (hl : l ≠ []) :
    argmaxLen l < l.length ∧
    (∀ j, j < l.length →
      (l.getD j []).length ≤ (l.getD (argmaxLen l) []).length) ∧
    ∀ j, j < argmaxLen l →
      (l.getD j []).length < (l.getD (argmaxLen l) []).length := by
  have h := argmaxAux_spec l l.length 0 0
    (fun j hj => absurd hj (Nat.not_lt_zero j))
    (fun j hj => absurd hj (Nat.not_lt_zero j))
  rw [← List.range_eq_range'] at h
  have hdef : argmaxLen l = argmaxAux l (List.range l.length) 0 := rfl
  rw [hdef]
  obtain ⟨A, B, C⟩ := h
  refine ⟨?_, fun j hj => A j (by omega), B⟩
  rcases C with h0 | ⟨_, hlt⟩
  · rw [h0]; exact List.length_pos.mpr hl
  · omega

/-- C2 amended: every community of size at least m is kept (the large
bucket); small-community members are merged into the first-encountered
largest surviving community; when no community survives,
filter_communities_by_size forms one community out of the merged nodes
when they reach m and otherwise returns the empty collection (it never
reports failure), while the inline Leiden filter drops the small nodes
in both of those cases. -/
theorem size_filter_amended (comms : List (List String)) (m : ℕ) :
    (smallOf comms m = [] →
      filter_communities_by_size comms m = largeOf comms m ∧
      leidenSizeFilter comms m = largeOf comms m) ∧
    (smallOf comms m ≠ [] → largeOf comms m ≠ [] →
      filter_communities_by_size comms m =
        mergeAt (largeOf comms m) (argmaxLen (largeOf comms m))
          (smallOf comms m) ∧
      leidenSizeFilter comms m =
        mergeAt (largeOf comms m) (argmaxLen (largeOf comms m))
          (smallOf comms m) ∧
      argmaxLen (largeOf comms m) < (largeOf comms m).length ∧
      (∀ j, j < (largeOf comms m).length →
        ((largeOf comms m).getD j []).length ≤
          ((largeOf comms m).getD (argmaxLen (largeOf comms m)) []).length) ∧
      (∀ j, j < argmaxLen (largeOf comms m) →
        ((largeOf comms m).getD j []).length <
          ((largeOf comms m).getD (argmaxLen (largeOf comms m)) []).length)) ∧
    (smallOf comms m ≠ [] → largeOf comms m = [] →
      m ≤ (smallOf comms m).length →
      filter_communities_by_size comms m = [smallOf comms m] ∧
      leidenSizeFilter comms m = []) ∧
    (smallOf comms m ≠ [] → largeOf comms m = [] →
      (smallOf comms m).length < m →
      filter_communities_by_size comms m = [] ∧
      leidenSizeFilter comms m = []) := by
  refine ⟨?_, ?_, ?_, ?_⟩
  · intro hs
    constructor
    · unfold filter_communities_by_size
      rw [if_neg (by simp [hs]), if_neg (by simp [hs])]
    · unfold leidenSizeFilter
      rw [if_neg (by simp [hs])]
  · intro hs hl
    obtain ⟨A, B, C⟩ := argmaxLen_spec (largeOf comms m) hl
    refine ⟨?_, ?_, A, B, C⟩
    · unfold filter_communities_by_size
      rw [if_pos ⟨hs, hl⟩]
    · unfold leidenSizeFilter
      rw [if_pos ⟨hs, hl⟩]
  · intro hs hl hm
    constructor
    · unfold filter_communities_by_size
      rw [if_neg (by simp [hl]), if_pos ⟨hs, hm⟩, hl]
      rfl
    · unfold leidenSizeFilter
      rw [if_neg (by simp [hl])]
      exact hl
  · intro hs hl hm
    have hnm : ¬ m ≤ (smallOf comms m).length := by omega
    constructor
    · unfold filter_communities_by_size
      rw [if_neg (by simp [hl]), if_neg (by simp [hnm])]
      exact hl
    · unfold leidenSizeFilter
      rw [if_neg (by simp [hl])]
      exact hl

/-- C2 counterexample: with two singleton communities and minimum size
3 the code returns the ordinary empty collection where the claim demands
a reported failure; with minimum size 2 the Leiden path drops the small
nodes entirely where the claim says they form one community (the
standalone filter does form it). -/
theorem size_filter_counterexample :
    filter_communities_by_size [["a"], ["b"]] 3 = [] ∧
    filterPolicySpec [["a"], ["b"]] 3 = none ∧
    leidenSizeFilter [["a"], ["b"]] 2 = [] ∧
    filterPolicySpec [["a"], ["b"]] 2 = some [["a", "b"]] ∧
    filter_communities_by_size [["a"], ["b"]] 2 = [["a", "b"]] := by
  refine ⟨by decide, by decide, by decide, by decide, by decide⟩

/-- Witness for C2 on a concrete merge. -/
theorem size_filter_witness :
    smallOf [["a"], ["b", "c"], ["d", "e", "f"]] 2 ≠ [] ∧
    largeOf [["a"], ["b", "c"], ["d", "e", "f"]] 2 ≠ [] ∧
    filter_communities_by_size [["a"], ["b", "c"], ["d", "e", "f"]] 2 =
      mergeAt (largeOf [["a"], ["b", "c"], ["d", "e", "f"]] 2)
        (argmaxLen (largeOf [["a"], ["b", "c"], ["d", "e", "f"]] 2))
        (smallOf [["a"], ["b", "c"], ["d", "e", "f"]] 2) :=
  ⟨by decide, by decide,
   ((size_filter_amended [["a"], ["b", "c"], ["d", "e", "f"]] 2).2.1
     (by decide) (by decide)).1⟩

/-- Characterization of the exported risk label: High has priority, then
Low, then Medium. -/
theorem riskLevel_char (hi lo s : ℚ) :
    (riskLevel hi lo s = "High" ↔ hi ≤ s) ∧
    (riskLevel hi lo s = "Low" ↔ s < hi ∧ s ≤ lo) ∧
    (riskLevel hi lo s = "Medium" ↔ lo < s ∧ s < hi) := by
  unfold riskLevel
  split_ifs with h1 h2
  · refine ⟨⟨fun _ => h1, fun _ => rfl⟩, ?_, ?_⟩
    · exact ⟨fun hc => absurd hc (by decide),
        fun hc => absurd h1 (not_le.mpr hc.1)⟩
    · exact ⟨fun hc => absurd hc (by decide),
        fun hc => absurd h1 (not_le.mpr hc.2)⟩
  · refine ⟨?_, ⟨fun _ => ⟨not_le.mp h1, h2⟩, fun _ => rfl⟩, ?_⟩
    · exact ⟨fun hc => absurd hc (by decide), fun hc => absurd hc h1⟩
    · exact ⟨fun hc => absurd hc (by decide),
        fun hc => absurd h2 (not_le.mpr hc.1)⟩
  · refine ⟨?_, ?_, ⟨fun _ => ⟨not_le.mp h2, not_le.mp h1⟩, fun _ => rfl⟩⟩
    · exact ⟨fun hc => absurd hc (by decide), fun hc => absurd hc h1⟩
    · exact ⟨fun hc => absurd hc (by decide), fun hc => absurd hc.2 h2⟩

/-- C4 amended: both threshold computations equal the 75th and 25th
percentile of the risk scores of the run; the subset views of
identify_high_low_risk_communities satisfy the claimed membership
conditions exactly; the single exported label is High iff the score
reaches the high threshold, Low iff it is below the high threshold and
at most the low threshold, Medium otherwise — which coincides with the
claimed trichotomy whenever low_threshold < high_threshold. -/
theorem risk_tier_thresholds_amended (risk_scores : List ℚ) (hi lo s : ℚ)
    (hhi : hi = quantileLinear risk_scores (3/4))
    (hlo : lo = quantileLinear risk_scores (1/4)) :
    identifyThresholds risk_scores = (hi, lo) ∧
    exportThresholds risk_scores = (hi, lo) ∧
    (riskLevel hi lo s = "High" ↔ hi ≤ s) ∧
    (riskLevel hi lo s = "Low" ↔ s < hi ∧ s ≤ lo) ∧
    (riskLevel hi lo s = "Medium" ↔ lo < s ∧ s < hi) ∧
    (s ∈ identifyHighRisk risk_scores hi ↔ s ∈ risk_scores ∧ hi ≤ s) ∧
    (s ∈ identifyLowRisk risk_scores lo ↔ s ∈ risk_scores ∧ s ≤ lo) ∧
    (s ∈ identifyMediumRisk risk_scores hi lo ↔
      s ∈ risk_scores ∧ lo < s ∧ s < hi) ∧
    (lo < hi →
      ((riskLevel hi lo s = "High" ↔ hi ≤ s) ∧
       (riskLevel hi lo s = "Low" ↔ s ≤ lo) ∧
       (riskLevel hi lo s = "Medium" ↔ lo < s ∧ s < hi))) := by
  subst hhi hlo
  obtain ⟨hH, hL, hM⟩ := riskLevel_char
    (quantileLinear risk_scores (3/4)) (quantileLinear risk_scores (1/4)) s
  refine ⟨rfl, rfl, hH, hL, hM, ?_, ?_, ?_, ?_⟩
  · simp [identifyHighRisk, List.mem_filter]
  · simp [identifyLowRisk, List.mem_filter]
  · simp [identifyMediumRisk, List.mem_filter, and_assoc]
  · intro hlt
    refine ⟨hH, ?_, hM⟩
    constructor
    · intro hc
      exact (hL.mp hc).2
    · intro hc
      exact hL.mpr ⟨lt_of_le_of_lt hc hlt, hc⟩

/-- C4 counterexample: when all communities share one risk score the two
percentiles coincide, the score is at most the low threshold, yet the
exported label is High, refuting "Low iff risk_score at most
low_threshold". -/
theorem risk_tier_counterexample :
    quantileLinear [1/10, 1/10] (3/4) = 1/10 ∧
    quantileLinear [1/10, 1/10] (1/4) = 1/10 ∧
    ((1 : ℚ)/10 ≤ 1/10) ∧
    riskLevel (1/10) (1/10) (1/10) = "High" ∧
    riskLevel (1/10) (1/10) (1/10) ≠ "Low" := by
  have hc34 : (⌈(3 : ℚ)/4⌉).toNat = 1 := by
    have h : ⌈(3 : ℚ)/4⌉ = 1 := by
      rw [Int.ceil_eq_iff]
      norm_num
    rw [h]
    rfl
  have hc14 : (⌈(1 : ℚ)/4⌉).toNat = 1 := by
    have h : ⌈(1 : ℚ)/4⌉ = 1 := by
      rw [Int.ceil_eq_iff]
      norm_num
    rw [h]
    rfl
  refine ⟨?_, ?_, le_refl _, ?_, ?_⟩
  · norm_num [quantileLinear, insertionSort, insertSorted, hc34]
  · norm_num [quantileLinear, insertionSort, insertSorted, hc14]
  · norm_num [riskLevel]
  · have : riskLevel (1/10) (1/10) (1/10) = "High" := by norm_num [riskLevel]
    rw [this]
    decide

/-- Witness for C4 at a concrete run with two distinct scores. -/
theorem risk_tier_witness :
    identifyThresholds [1/10, 9/10] =
      (quantileLinear [1/10, 9/10] (3/4), quantileLinear [1/10, 9/10] (1/4)) ∧
    exportThresholds [1/10, 9/10] =
      (quantileLinear [1/10, 9/10] (3/4), quantileLinear [1/10, 9/10] (1/4)) :=
  ⟨(risk_tier_thresholds_amended [1/10, 9/10] _ _ (1/2) rfl rfl).1,
   (risk_tier_thresholds_amended [1/10, 9/10] _ _ (1/2) rfl rfl).2.1⟩
